import Mathlib

/-!
# Package `ptr`: pointer helpers over an explicit store

A shallow embedding of `ptr.go`.  A Go pointer `*T` is either `nil` or the
address of a cell holding a `T`; the cells of type `T` live in a store that
is passed explicitly.  Taking the address of a parameter (`&value`)
allocates a fresh cell, `*ptr` reads a cell and `*ptr = v` writes one in
place.  A read or write through `nil` (or through an address outside the
store) is a run-time fault, rendered as `none`.

Two points of the language are kept apart from the plain model: a `==` that
can panic at run time (`GoComparableRT`, `CompareRT`, `ToEmptybleRT`), and the
address of a variable of a zero-size type, which need not be fresh (`GoSized`,
`ToSized`, `ShallowCopySized`).
-/

namespace ptr

/-! ## Types -/

/-- Constraint `any`: every Go type has a zero value, the value of `var zero T`. -/
class GoType (T : Type) where
  zero : T

/-- Constraint `comparable`: the type also has the operator `==`.  The field
`eq` is that operator; it is not assumed to be reflexive (on `float64` it is
not).  The operator is total, as it is on every type of the type set of
`comparable` (the strictly comparable types); a comparison of interface values
that panics at run time is outside this class. -/
class GoComparable (T : Type) extends GoType T where
  eq : T → T → Bool

/-- A pointer `*T`: `nil`, or the address of a cell of the store of `T`. -/
inductive Ref (T : Type) where
  | nil : Ref T
  | addr (a : Nat) : Ref T

/-- The test `ptr == nil`. -/
def Ref.isNil {T : Type} : Ref T → Bool
  | Ref.nil => true
  | Ref.addr _ => false

/-- The cells of type `T`; the address of a cell is its position. -/
abbrev Store (T : Type) := List T

/-- The expression `*ptr`: the content of the cell, a fault on `nil`. -/
def load {T : Type} (s : Store T) : Ref T → Option T
  | Ref.nil => none
  | Ref.addr a => s[a]?

/-- The statement `*ptr = v`: overwrite the cell in place, a fault on `nil`. -/
def assign {T : Type} (s : Store T) (p : Ref T) (v : T) : Option (Store T) :=
  match p with
  | Ref.nil => none
  | Ref.addr a => if a < s.length then some (s.set a v) else none

/-- The expression `&value` for a local `value`: a fresh cell holding it.  Go
promises the fresh address for a type of non-zero size; what it may do for a
type of size zero is `allocZS`. -/
def alloc {T : Type} (s : Store T) (value : T) : Ref T × Store T :=
  (Ref.addr s.length, s ++ [value])

/-- A pointer a Go program can hold: `nil` or the address of an existing cell. -/
def Ref.validIn {T : Type} (p : Ref T) (s : Store T) : Prop :=
  match p with
  | Ref.nil => True
  | Ref.addr a => a < s.length

instance {T : Type} (p : Ref T) (s : Store T) : Decidable (p.validIn s) := by
  cases p <;> unfold Ref.validIn <;> infer_instance

/-! ## Some Go types -/

/-- Go `int`, used only through its zero value and `==`. -/
instance : GoComparable Int where
  zero := 0
  eq x y := decide (x = y)

/-- Go `string`: the zero value is the empty string. -/
instance : GoComparable String where
  zero := ""
  eq x y := decide (x = y)

/-- Go `float64` as its IEEE 754 binary64 fields: sign bit, 11-bit biased
exponent, 52-bit fraction. -/
structure float64 where
  sign : Bool
  exponent : Fin 2048
  fraction : Fin (2 ^ 52)
deriving DecidableEq

/-- A NaN has every exponent bit set and a non-zero fraction. -/
def float64.isNaN (x : float64) : Bool :=
  decide (x.exponent.val = 2047) && decide (x.fraction.val ≠ 0)

/-- Both `+0` and `-0`. -/
def float64.isZero (x : float64) : Bool :=
  decide (x.exponent.val = 0) && decide (x.fraction.val = 0)

/-- Go `==` on `float64`: a NaN equals nothing, the two zeros are equal, and
any other two values are equal when their fields are. -/
def float64.eq (x y : float64) : Bool :=
  if x.isNaN || y.isNaN then false
  else if x.isZero && y.isZero then true
  else decide (x = y)

/-- The value `+0`, the zero value of `float64`. -/
def float64.posZero : float64 := ⟨false, ⟨0, by decide⟩, ⟨0, by decide⟩⟩

/-- The NaN that `math.NaN()` returns, bit pattern `0x7FF8000000000001`. -/
def float64.nan : float64 := ⟨false, ⟨2047, by decide⟩, ⟨0x8000000000001, by decide⟩⟩

/-- The literal `3.14` of `TestCompare`, bit pattern `0x40091EB851EB851F`. -/
def float64.lit314 : float64 := ⟨false, ⟨1024, by decide⟩, ⟨0x91EB851EB851F, by decide⟩⟩

instance : GoComparable float64 where
  zero := float64.posZero
  eq := float64.eq

/-- The negative zero of `float64`, bit pattern `0x8000000000000000`. -/
def float64.negZero : float64 := ⟨true, ⟨0, by decide⟩, ⟨0, by decide⟩⟩

/-- The struct `user` of `ExampleDeref`: a pointee type with a field that is
itself a pointer. -/
structure user where
  FirstName : String
  MiddleName : Ref String
  LastName : String

/-- The zero value of `user`: empty strings and a nil pointer. -/
instance : GoType user where
  zero := ⟨"", Ref.nil, ""⟩

/-- Constraint `comparable` with the run-time behaviour of `==` kept: `eqRT`
is `none` when the comparison panics.  The type arguments a generic function
accepts include interface types (since Go 1.20) and structs and arrays built
from them, whose `==` panics when both sides hold the same incomparable dynamic
type.  A zero value holds only nil interfaces, which have no dynamic type, so a
comparison against it returns. -/
class GoComparableRT (T : Type) extends GoType T where
  eqRT : T → T → Option Bool
  eqRT_zero : ∀ v : T, (eqRT v zero).isSome = true

/-- A type whose `==` never panics, seen as a type whose `==` may. -/
def GoComparableRT.ofTotal (T : Type) [GoComparable T] : GoComparableRT T where
  zero := GoType.zero
  eqRT x y := some (GoComparable.eq x y)
  eqRT_zero := fun _ => rfl

/-- Go `any` (`interface{}`) over three dynamic types: `int`, `string` and the
incomparable `[]int`; `nilValue` is the nil interface. -/
inductive anyValue where
  | nilValue : anyValue
  | ofInt (n : Int) : anyValue
  | ofString (str : String) : anyValue
  | ofIntSlice (elems : List Int) : anyValue

/-- Go `==` on interface values: equal dynamic types and equal values; values
of different dynamic types are unequal; two values of the same incomparable
dynamic type make the comparison panic. -/
def anyValue.eqRT : anyValue → anyValue → Option Bool
  | anyValue.nilValue, anyValue.nilValue => some true
  | anyValue.ofInt a, anyValue.ofInt b => some (decide (a = b))
  | anyValue.ofString a, anyValue.ofString b => some (decide (a = b))
  | anyValue.ofIntSlice _, anyValue.ofIntSlice _ => none
  | _, _ => some false

instance : GoComparableRT anyValue where
  zero := anyValue.nilValue
  eqRT := anyValue.eqRT
  eqRT_zero := fun v => by cases v <;> rfl

/-- The size class of a Go type: `zeroSize` tells whether `unsafe.Sizeof` of
the type is 0 (`struct{}`, `[0]int`, ...); such a type has a single value. -/
class GoSized (T : Type) where
  zeroSize : Bool
  single : zeroSize = true → ∀ v w : T, v = w

/-- Go `struct{}`: a type of size zero, with its one value. -/
inductive emptyStruct where
  | mk : emptyStruct

instance : GoComparable emptyStruct where
  zero := emptyStruct.mk
  eq _ _ := true

instance : GoSized emptyStruct where
  zeroSize := true
  single := fun _ v w => by cases v; cases w; rfl

instance : GoSized Int where
  zeroSize := false
  single := fun h => by cases h

instance : GoSized String where
  zeroSize := false
  single := fun h => by cases h

instance : GoSized float64 where
  zeroSize := false
  single := fun h => by cases h

instance : GoSized anyValue where
  zeroSize := false
  single := fun h => by cases h

/-! ## The functions of `ptr.go` -/

/-- Source: `func To[T any](value T) *T { return &value }`. -/
def To {T : Type} (value : T) (s : Store T) : Ref T × Store T :=
  alloc s value

/-- Source: `ToEmptyble`: `nil` when `value == zero`, else `&value`. -/
def ToEmptyble {T : Type} [GoComparable T] (value : T) (s : Store T) : Ref T × Store T :=
  let zero : T := GoType.zero
  if GoComparable.eq value zero then
    (Ref.nil, s)
  else
    alloc s value

/-- Source: `Deref`: the zero value when `ptr == nil`, else `*ptr`. -/
def Deref {T : Type} [GoType T] (ptr : Ref T) (s : Store T) : Option T :=
  if ptr.isNil then
    let zero : T := GoType.zero
    some zero
  else
    load s ptr

/-- Source: `DerefOr`: `def` when `ptr == nil`, else `*ptr`. -/
def DerefOr {T : Type} (ptr : Ref T) (dflt : T) (s : Store T) : Option T :=
  if ptr.isNil then
    some dflt
  else
    load s ptr

/-- Source: `Reset`: `*ptr = zero` when `ptr != nil`, nothing otherwise. -/
def Reset {T : Type} [GoType T] (ptr : Ref T) (s : Store T) : Option (Store T) :=
  if !ptr.isNil then
    let zero : T := GoType.zero
    assign s ptr zero
  else
    some s

/-- Source: `ResetTo`: `*ptr = to` when `ptr != nil`, nothing otherwise. -/
def ResetTo {T : Type} (ptr : Ref T) (toVal : T) (s : Store T) : Option (Store T) :=
  if !ptr.isNil then
    assign s ptr toVal
  else
    some s

/-- Source: `ShallowCopy`: `nil` on `nil`, else `value := *ptr; return &value`. -/
def ShallowCopy {T : Type} (ptr : Ref T) (s : Store T) : Option (Ref T × Store T) :=
  if ptr.isNil then
    some (Ref.nil, s)
  else
    match load s ptr with
    | none => none
    | some value => some (alloc s value)

/-- Source: `Compare`: when either pointer is `nil` the answer is whether both
are; otherwise `*a == *b`. -/
def Compare {T : Type} [GoComparable T] (a b : Ref T) (s : Store T) : Option Bool :=
  if a.isNil || b.isNil then
    some (a.isNil && b.isNil)
  else
    match load s a, load s b with
    | some va, some vb => some (GoComparable.eq va vb)
    | _, _ => none

/-- Source: `Map`: `nil` on `nil`, else `result := f(*ptr); return &result`.
The argument is read in the store of `T`, the result cell is allocated in the
store of `U`. -/
def Map {T U : Type} (ptr : Ref T) (f : T → U) (st : Store T) (su : Store U) :
    Option (Ref U × Store U) :=
  if ptr.isNil then
    some (Ref.nil, su)
  else
    match load st ptr with
    | none => none
    | some v =>
      let result := f v
      some (alloc su result)

/-- Source: `ToEmptyble`, over a `==` that may panic. -/
def ToEmptybleRT {T : Type} [GoComparableRT T] (value : T) (s : Store T) :
    Option (Ref T × Store T) :=
  let zero : T := GoType.zero
  match GoComparableRT.eqRT value zero with
  | none => none
  | some true => some (Ref.nil, s)
  | some false => some (alloc s value)

/-- Source: `Compare`, over a `==` that may panic. -/
def CompareRT {T : Type} [GoComparableRT T] (a b : Ref T) (s : Store T) : Option Bool :=
  if a.isNil || b.isNil then
    some (a.isNil && b.isNil)
  else
    match load s a, load s b with
    | some va, some vb => GoComparableRT.eqRT va vb
    | _, _ => none

/-- Source: `Map`, for a transform with an effect of its own: `f` reads and
updates a state `σ` (what a Go closure captures) each time it is called. -/
def MapE {T U σ : Type} (ptr : Ref T) (f : T → σ → U × σ) (st : Store T) (su : Store U)
    (w : σ) : Option ((Ref U × Store U) × σ) :=
  if ptr.isNil then
    some ((Ref.nil, su), w)
  else
    match load st ptr with
    | none => none
    | some v =>
      let result := f v w
      some (alloc su result.1, result.2)

/-- The transform `f` instrumented to record each of its calls: every call
appends its argument to the log. -/
def counted {T U : Type} (f : T → U) : T → List T → U × List T :=
  fun v log => (f v, log ++ [v])

/-- The loop of `ExampleReset`: `Reset(ptr)` executed `n` times in a row. -/
def ResetTimes {T : Type} [GoType T] : Nat → Ref T → Store T → Option (Store T)
  | 0, _, s => some s
  | n + 1, ptr, s =>
    match Reset ptr s with
    | none => none
    | some s1 => ResetTimes n ptr s1

/-- The expression `&value` for a local `value` of a type of size zero.  Go
does not promise a fresh address here (pointers to distinct zero-size variables
may or may not be equal), and the gc runtime gives every zero-size heap
variable one shared address: the first cell of the store, created if the store
is empty. -/
def allocZS {T : Type} (s : Store T) (value : T) : Ref T × Store T :=
  match s with
  | [] => (Ref.addr 0, [value])
  | _ :: _ => (Ref.addr 0, s)

/-- The expression `&value` for a local `value`, by the size class of its type. -/
def allocSized {T : Type} [GoSized T] (s : Store T) (value : T) : Ref T × Store T :=
  if @GoSized.zeroSize T _ then allocZS s value else alloc s value

/-- Source: `To`, with the address of `value` chosen by the size class of `T`. -/
def ToSized {T : Type} [GoSized T] (value : T) (s : Store T) : Ref T × Store T :=
  allocSized s value

/-- Source: `ShallowCopy`, with the address of `value` chosen by the size class
of `T`. -/
def ShallowCopySized {T : Type} [GoSized T] (ptr : Ref T) (s : Store T) :
    Option (Ref T × Store T) :=
  if ptr.isNil then
    some (Ref.nil, s)
  else
    match load s ptr with
    | none => none
    | some value => some (allocSized s value)

/-! ## Store lemmas -/

theorem load_alloc {T : Type} (s : Store T) (v : T) :
    load (alloc s v).2 (alloc s v).1 = some v := by
  simp [alloc, load]

theorem load_alloc_old {T : Type} (s : Store T) (v : T) (a : Nat) (h : a < s.length) :
    load (alloc s v).2 (Ref.addr a) = load s (Ref.addr a) := by
  simp [alloc, load, List.getElem?_append_left h]

theorem alloc_ne_nil {T : Type} (s : Store T) (v : T) : (alloc s v).1 ≠ Ref.nil := by
  simp [alloc]

theorem load_of_valid {T : Type} (s : Store T) (p : Ref T) (hn : p ≠ Ref.nil)
    (hv : p.validIn s) : ∃ v, load s p = some v := by
  cases p with
  | nil => exact absurd rfl hn
  | addr a =>
    have h : a < s.length := hv
    exact ⟨s[a], by simp [load, h]⟩

theorem assign_valid {T : Type} (s : Store T) (a : Nat) (v : T) (h : a < s.length) :
    assign s (Ref.addr a) v = some (s.set a v) := by
  simp [assign, h]

theorem load_set_same {T : Type} (s : Store T) (a : Nat) (v : T) (h : a < s.length) :
    load (s.set a v) (Ref.addr a) = some v := by
  simp [load, h]

theorem load_set_other {T : Type} (s : Store T) (a : Nat) (v : T) (q : Ref T)
    (h : q ≠ Ref.addr a) : load (s.set a v) q = load s q := by
  cases q with
  | nil => rfl
  | addr b =>
    have hne : a ≠ b := fun hab => h (by rw [hab])
    simp [load, List.getElem?_set_ne hne]

theorem isNil_iff {T : Type} (p : Ref T) : p.isNil = true ↔ p = Ref.nil := by
  cases p <;> simp [Ref.isNil]

/-! ## Test vectors of `ptr_test.go` -/

theorem test_Compare_nil_nil :
    Compare (Ref.nil : Ref float64) Ref.nil [] = some true := by decide

theorem test_Compare_same_values :
    Compare (To float64.lit314 []).1 (To float64.lit314 (To float64.lit314 []).2).1
      (To float64.lit314 (To float64.lit314 []).2).2 = some true := by decide

theorem test_Compare_different_values :
    Compare (To "first" []).1 (To "second" (To "first" []).2).1
      (To "second" (To "first" []).2).2 = some false := by decide

/-! ## Compare -/

/-- C2, as stated, fails at `float64`: for `x` a NaN, `Compare(To(x), To(x))`
is false, since a NaN is not `==` to itself. -/
theorem Compare_To_nan_false :
    Compare (To float64.nan []).1 (To float64.nan (To float64.nan []).2).1
      (To float64.nan (To float64.nan []).2).2 = some false := by
  decide

/-! ## To, ToEmptyble, Deref, DerefOr -/

/-- C3: `ToEmptyble(v)` is nil if and only if `v == zero` holds for the zero
value of `T`; when it does not hold, the result is a non-nil reference to a
cell whose content is `v`. -/
theorem ToEmptyble_nil_iff {T : Type} [GoComparable T] (v : T) (s : Store T) :
    ((ToEmptyble v s).1 = Ref.nil ↔ GoComparable.eq v (GoType.zero : T) = true) ∧
    (GoComparable.eq v (GoType.zero : T) = false →
      (ToEmptyble v s).1 ≠ Ref.nil ∧ load (ToEmptyble v s).2 (ToEmptyble v s).1 = some v) := by
  by_cases h : GoComparable.eq v (GoType.zero : T) = true
  · simp [ToEmptyble, h]
  · simp [ToEmptyble, h, alloc, load]

theorem ToEmptyble_nil_iff_witness :
    GoComparable.eq (42 : Int) (GoType.zero : Int) = false ∧
    (ToEmptyble (42 : Int) []).1 ≠ Ref.nil ∧
    load (ToEmptyble (42 : Int) []).2 (ToEmptyble (42 : Int) []).1 = some 42 :=
  ⟨by decide, (ToEmptyble_nil_iff (42 : Int) []).2 (by decide)⟩

/-- C4: `To(v)` is a non-nil reference and `Deref(To(v))` returns `v`. -/
theorem Deref_To {T : Type} [GoType T] (v : T) (s : Store T) :
    (To v s).1 ≠ Ref.nil ∧ Deref (To v s).1 (To v s).2 = some v := by
  simp [To, Deref, alloc, Ref.isNil, load]

/-- C5: for a pointer a program can hold, `Deref(p)` returns the pointee of `p`
when `p` is non-nil and the zero value of `T` when `p` is nil. -/
theorem Deref_eq {T : Type} [GoType T] (s : Store T) (p : Ref T) (hp : p.validIn s) :
    (p = Ref.nil → Deref p s = some (GoType.zero : T)) ∧
    (p ≠ Ref.nil → ∃ v, load s p = some v ∧ Deref p s = some v) := by
  cases p with
  | nil => simp [Deref, Ref.isNil]
  | addr a =>
    have h : a < s.length := hp
    simp [Deref, Ref.isNil, load, h]

theorem Deref_eq_witness :
    (Ref.addr 0 : Ref Int).validIn [123] ∧
    ((Ref.addr 0 : Ref Int) = Ref.nil → Deref (Ref.addr 0) ([123] : Store Int) = some 0) ∧
    ((Ref.addr 0 : Ref Int) ≠ Ref.nil →
      ∃ v, load ([123] : Store Int) (Ref.addr 0) = some v ∧ Deref (Ref.addr 0) [123] = some v) :=
  ⟨by decide, Deref_eq ([123] : Store Int) (Ref.addr 0) (by decide)⟩

/-- C6: for a pointer a program can hold, `DerefOr(p, d)` returns the pointee
of `p` when `p` is non-nil and `d` when `p` is nil; in particular
`DerefOr(nil, d)` is `d` and `DerefOr(To(v), d)` is `v`, whatever `d` is. -/
theorem DerefOr_eq {T : Type} (s : Store T) (p : Ref T) (d : T) (hp : p.validIn s) :
    (p = Ref.nil → DerefOr p d s = some d) ∧
    (p ≠ Ref.nil → ∃ v, load s p = some v ∧ DerefOr p d s = some v) ∧
    DerefOr Ref.nil d s = some d ∧
    (∀ v : T, DerefOr (To v s).1 d (To v s).2 = some v) := by
  refine ⟨?_, ?_, ?_, ?_⟩
  · intro h
    subst h
    simp [DerefOr, Ref.isNil]
  · intro h
    obtain ⟨v, hv⟩ := load_of_valid s p h hp
    refine ⟨v, hv, ?_⟩
    cases p with
    | nil => exact absurd rfl h
    | addr a => simpa [DerefOr, Ref.isNil] using hv
  · simp [DerefOr, Ref.isNil]
  · intro v
    simp [DerefOr, To, alloc, Ref.isNil, load]

theorem DerefOr_eq_witness :
    (Ref.addr 0 : Ref Int).validIn [123] ∧
    DerefOr (Ref.addr 0 : Ref Int) 1 [123] = some 123 :=
  ⟨by decide, by
    obtain ⟨v, hv, hd⟩ :=
      (DerefOr_eq ([123] : Store Int) (Ref.addr 0) 1 (by decide)).2.1 (by simp)
    have h123 : v = 123 := by simpa [load] using hv.symm
    rw [hd, h123]⟩

/-! ## Map -/

/-- C7: for a pointer a program can hold, `Map(p, f)` is nil when `p` is nil,
and otherwise is a non-nil reference whose pointee is `f` applied to the
pointee of `p`. -/
theorem Map_eq {T U : Type} (st : Store T) (su : Store U) (p : Ref T) (f : T → U)
    (hp : p.validIn st) :
    (p = Ref.nil → Map p f st su = some (Ref.nil, su)) ∧
    (p ≠ Ref.nil → ∃ v q su1, load st p = some v ∧ Map p f st su = some (q, su1) ∧
      q ≠ Ref.nil ∧ load su1 q = some (f v)) := by
  cases p with
  | nil => simp [Map, Ref.isNil]
  | addr a =>
    have h : a < st.length := hp
    refine ⟨fun hnil => (by cases hnil), fun _ => ?_⟩
    refine ⟨st[a], (alloc su (f st[a])).1, (alloc su (f st[a])).2, ?_, ?_, ?_, ?_⟩
    · simp [load, h]
    · simp [Map, Ref.isNil, load, h]
    · exact alloc_ne_nil _ _
    · exact load_alloc _ _

theorem Map_eq_witness :
    (Ref.addr 0 : Ref Int).validIn [42] ∧
    ((Ref.addr 0 : Ref Int) = Ref.nil →
      Map (Ref.addr 0 : Ref Int) (fun n => decide (n = 42)) [42] [] = some (Ref.nil, [])) ∧
    ((Ref.addr 0 : Ref Int) ≠ Ref.nil → ∃ v q su1,
      load ([42] : Store Int) (Ref.addr 0) = some v ∧
      Map (Ref.addr 0 : Ref Int) (fun n => decide (n = 42)) [42] [] = some (q, su1) ∧
      q ≠ Ref.nil ∧ load su1 q = some (decide (v = 42))) :=
  ⟨by decide, Map_eq ([42] : Store Int) ([] : Store Bool) (Ref.addr 0)
    (fun n => decide (n = 42)) (by decide)⟩

/-! ## Reset, ResetTo -/

/-- C8: for a non-nil reference `p` into the store, `Reset(p)` returns, and
afterwards the cell `p` refers to holds the zero value of `T`; the write is in
place, so every reference equal to `p` reads the zero value, every other cell
is unchanged and no cell is added. -/
theorem Reset_in_place {T : Type} [GoType T] (s : Store T) (p : Ref T)
    (hn : p ≠ Ref.nil) (hp : p.validIn s) :
    ∃ s1, Reset p s = some s1 ∧
      load s1 p = some (GoType.zero : T) ∧
      (∀ q : Ref T, q = p → load s1 q = some (GoType.zero : T)) ∧
      (∀ q : Ref T, q ≠ p → load s1 q = load s q) ∧
      s1.length = s.length := by
  cases p with
  | nil => exact absurd rfl hn
  | addr a =>
    have h : a < s.length := hp
    refine ⟨s.set a GoType.zero, ?_, load_set_same s a _ h, ?_, ?_, by simp⟩
    · simp [Reset, Ref.isNil, assign_valid s a _ h]
    · intro q hq
      rw [hq]
      exact load_set_same s a _ h
    · intro q hq
      exact load_set_other s a _ q hq

theorem Reset_in_place_witness :
    (Ref.addr 0 : Ref Int) ≠ Ref.nil ∧ (Ref.addr 0 : Ref Int).validIn [1999, 7] ∧
    ∃ s1, Reset (Ref.addr 0 : Ref Int) [1999, 7] = some s1 ∧
      load s1 (Ref.addr 0) = some (GoType.zero : Int) ∧
      (∀ q : Ref Int, q = Ref.addr 0 → load s1 q = some (GoType.zero : Int)) ∧
      (∀ q : Ref Int, q ≠ Ref.addr 0 → load s1 q = load ([1999, 7] : Store Int) q) ∧
      s1.length = ([1999, 7] : Store Int).length :=
  ⟨by simp, by decide,
    Reset_in_place ([1999, 7] : Store Int) (Ref.addr 0) (by simp) (by decide)⟩

/-- C9: for a non-nil reference `p` into the store and every value `x`,
`ResetTo(p, x)` returns, and afterwards the cell `p` refers to holds `x`, every
other cell is unchanged and no cell is added. -/
theorem ResetTo_in_place {T : Type} (s : Store T) (p : Ref T) (x : T)
    (hn : p ≠ Ref.nil) (hp : p.validIn s) :
    ∃ s1, ResetTo p x s = some s1 ∧
      load s1 p = some x ∧
      (∀ q : Ref T, q ≠ p → load s1 q = load s q) ∧
      s1.length = s.length := by
  cases p with
  | nil => exact absurd rfl hn
  | addr a =>
    have h : a < s.length := hp
    refine ⟨s.set a x, ?_, load_set_same s a x h, ?_, by simp⟩
    · simp [ResetTo, Ref.isNil, assign_valid s a x h]
    · intro q hq
      exact load_set_other s a x q hq

theorem ResetTo_in_place_witness :
    (Ref.addr 1 : Ref Int) ≠ Ref.nil ∧ (Ref.addr 1 : Ref Int).validIn [7, 100] ∧
    ∃ s1, ResetTo (Ref.addr 1 : Ref Int) 150 [7, 100] = some s1 ∧
      load s1 (Ref.addr 1) = some 150 ∧
      (∀ q : Ref Int, q ≠ Ref.addr 1 → load s1 q = load ([7, 100] : Store Int) q) ∧
      s1.length = ([7, 100] : Store Int).length :=
  ⟨by simp, by decide,
    ResetTo_in_place ([7, 100] : Store Int) (Ref.addr 1) 150 (by simp) (by decide)⟩

/-- C10: `Reset(nil)` and `ResetTo(nil, x)` return without a fault and leave
the whole store as it was. -/
theorem Reset_nil_noop {T : Type} [GoType T] (s : Store T) (x : T) :
    Reset (Ref.nil : Ref T) s = some s ∧ ResetTo (Ref.nil : Ref T) x s = some s := by
  simp [Reset, ResetTo, Ref.isNil]

/-! ## Fresh cells: To and ShallowCopy -/

theorem lt_of_load {T : Type} (s : Store T) (a : Nat) (v : T)
    (h : load s (Ref.addr a) = some v) : a < s.length := by
  simp only [load] at h
  exact (List.getElem?_eq_some.mp h).1

theorem addr_ne_fresh {T : Type} (s : Store T) (a : Nat) (h : a < s.length) :
    (Ref.addr a : Ref T) ≠ Ref.addr s.length := by
  intro hab
  injection hab with hab
  omega

theorem assign_fresh {T : Type} (s : Store T) (v x : T) :
    assign (alloc s v).2 (alloc s v).1 x = some ((s ++ [v]).set s.length x) := by
  simp [alloc, assign]

theorem load_fresh_written {T : Type} (s : Store T) (v x : T) :
    load ((s ++ [v]).set s.length x) (Ref.addr s.length) = some x :=
  load_set_same (s ++ [v]) s.length x (by simp)

theorem load_old_after_fresh_write {T : Type} (s : Store T) (v x : T) (a : Nat)
    (h : a < s.length) :
    load ((s ++ [v]).set s.length x) (Ref.addr a) = load s (Ref.addr a) := by
  rw [load_set_other (s ++ [v]) s.length x (Ref.addr a) (addr_ne_fresh s a h)]
  exact load_alloc_old s v a h

theorem load_fresh_after_old_write {T : Type} (s : Store T) (v w : T) (a : Nat)
    (h : a < s.length) :
    load ((s ++ [v]).set a w) (Ref.addr s.length) = some v := by
  rw [load_set_other (s ++ [v]) a w (Ref.addr s.length) (fun e => addr_ne_fresh s a h e.symm)]
  exact load_alloc s v

theorem ShallowCopy_addr {T : Type} (s : Store T) (a : Nat) (v : T)
    (h : load s (Ref.addr a) = some v) :
    ShallowCopy (Ref.addr a) s = some (Ref.addr s.length, s ++ [v]) := by
  simp [ShallowCopy, Ref.isNil, h, alloc]

/-- C13: for a non-nil reference `p` into the store with pointee `v`, and
`q := ShallowCopy(p)`: after `ResetTo(q, x)` the pointee of `p` is still `v`
(and that of `q` is `x`), and after `ResetTo(p, x)` the pointee of `q` is still
`v` (and that of `p` is `x`). -/
theorem ShallowCopy_independent {T : Type} (s : Store T) (p : Ref T) (v x : T)
    (hv : load s p = some v) :
    ∃ q s1, ShallowCopy p s = some (q, s1) ∧
      (∃ s2, ResetTo q x s1 = some s2 ∧ load s2 p = some v ∧ load s2 q = some x) ∧
      (∃ s3, ResetTo p x s1 = some s3 ∧ load s3 q = some v ∧ load s3 p = some x) := by
  cases p with
  | nil => simp [load] at hv
  | addr a =>
    have hlt : a < s.length := lt_of_load s a v hv
    have hlt2 : a < (s ++ [v]).length := by simp; omega
    refine ⟨Ref.addr s.length, s ++ [v], ShallowCopy_addr s a v hv, ?_, ?_⟩
    · refine ⟨(s ++ [v]).set s.length x, ?_, ?_, load_fresh_written s v x⟩
      · simp [ResetTo, Ref.isNil, assign]
      · rw [load_old_after_fresh_write s v x a hlt]
        exact hv
    · refine ⟨(s ++ [v]).set a x, ?_, load_fresh_after_old_write s v x a hlt,
        load_set_same (s ++ [v]) a x hlt2⟩
      simp [ResetTo, Ref.isNil, assign_valid (s ++ [v]) a x hlt2]

theorem ShallowCopy_independent_witness :
    load ([2024] : Store Int) (Ref.addr 0) = some 2024 ∧
    ∃ q s1, ShallowCopy (Ref.addr 0 : Ref Int) [2024] = some (q, s1) ∧
      (∃ s2, ResetTo q 7 s1 = some s2 ∧ load s2 (Ref.addr 0) = some 2024 ∧
        load s2 q = some 7) ∧
      (∃ s3, ResetTo (Ref.addr 0) 7 s1 = some s3 ∧ load s3 q = some 2024 ∧
        load s3 (Ref.addr 0) = some 7) :=
  ⟨rfl, ShallowCopy_independent ([2024] : Store Int) (Ref.addr 0) 2024 7 rfl⟩

/-- C14: for a pointee type `T` with a field `nested` that is itself a
reference, and a non-nil `p` whose pointee holds a non-nil nested reference:
the nested reference inside the pointee of `ShallowCopy(p)` is the same
reference as the one inside the pointee of `p`, so after `ResetTo` on the
nested reference of the copy, the nested reference of the original reads the
new value. -/
theorem ShallowCopy_aliases_nested {T V : Type} (nested : T → Ref V) (s : Store T)
    (sv : Store V) (p : Ref T) (t : T) (x : V) (ht : load s p = some t)
    (hn : nested t ≠ Ref.nil) (hv : (nested t).validIn sv) :
    ∃ q s1 tq, ShallowCopy p s = some (q, s1) ∧ q ≠ p ∧
      load s1 q = some tq ∧ load s1 p = some t ∧ nested tq = nested t ∧
      ∃ sv1, ResetTo (nested tq) x sv = some sv1 ∧ load sv1 (nested t) = some x := by
  cases p with
  | nil => simp [load] at ht
  | addr a =>
    have hlt : a < s.length := lt_of_load s a t ht
    refine ⟨Ref.addr s.length, s ++ [t], t, ShallowCopy_addr s a t ht,
      fun e => addr_ne_fresh s a hlt e.symm, load_alloc s t, ?_, rfl, ?_⟩
    · rw [← ht]
      exact load_alloc_old s t a hlt
    · cases hr : nested t with
      | nil => exact absurd hr hn
      | addr b =>
        rw [hr] at hv
        have hb : b < sv.length := hv
        exact ⟨sv.set b x, by simp [ResetTo, Ref.isNil, assign_valid sv b x hb],
          load_set_same sv b x hb⟩

theorem ShallowCopy_aliases_nested_witness :
    load ([⟨"John", Ref.addr 0, "Doe"⟩] : Store user) (Ref.addr 0)
      = some ⟨"John", Ref.addr 0, "Doe"⟩ ∧
    (Ref.addr 0 : Ref String) ≠ Ref.nil ∧
    (Ref.addr 0 : Ref String).validIn ["Fitzgerald"] ∧
    ∃ q s1 tq, ShallowCopy (Ref.addr 0) ([⟨"John", Ref.addr 0, "Doe"⟩] : Store user)
        = some (q, s1) ∧ q ≠ Ref.addr 0 ∧
      load s1 q = some tq ∧ load s1 (Ref.addr 0) = some ⟨"John", Ref.addr 0, "Doe"⟩ ∧
      tq.MiddleName = Ref.addr 0 ∧
      ∃ sv1, ResetTo tq.MiddleName "F." ["Fitzgerald"] = some sv1 ∧
        load sv1 (Ref.addr 0) = some "F." :=
  ⟨rfl, by simp, by decide,
    ShallowCopy_aliases_nested user.MiddleName [⟨"John", Ref.addr 0, "Doe"⟩] ["Fitzgerald"]
      (Ref.addr 0) ⟨"John", Ref.addr 0, "Doe"⟩ "F." rfl (by simp) (by decide)⟩

/-! ## Repeated Reset -/

theorem Reset_fixed {T : Type} [GoType T] (s s1 : Store T) (p : Ref T)
    (h : Reset p s = some s1) : Reset p s1 = some s1 := by
  cases p with
  | nil =>
    simp only [Reset, Ref.isNil, Bool.not_true, Bool.false_eq_true, if_false,
      Option.some.injEq] at h ⊢
  | addr a =>
    by_cases hlt : a < s.length
    · simp only [Reset, Ref.isNil, Bool.not_false, if_true, assign_valid s a _ hlt,
        Option.some.injEq] at h
      subst h
      have hlt1 : a < (s.set a (GoType.zero : T)).length := by simpa using hlt
      simp [Reset, Ref.isNil, assign_valid _ a _ hlt1]
    · simp [Reset, Ref.isNil, assign, hlt] at h

theorem ResetTimes_fixed {T : Type} [GoType T] (s1 : Store T) (p : Ref T)
    (h : Reset p s1 = some s1) : ∀ n, ResetTimes n p s1 = some s1 := by
  intro n
  induction n with
  | zero => rfl
  | succ k ih => simp [ResetTimes, h, ih]

theorem ResetTimes_succ {T : Type} [GoType T] (s s1 : Store T) (p : Ref T)
    (h : Reset p s = some s1) (n : Nat) : ResetTimes (n + 1) p s = some s1 := by
  simp [ResetTimes, h, ResetTimes_fixed s1 p (Reset_fixed s s1 p h) n]

theorem Reset_returns {T : Type} [GoType T] (s : Store T) (p : Ref T) (hp : p.validIn s) :
    ∃ s1, Reset p s = some s1 := by
  cases p with
  | nil => exact ⟨s, by simp [Reset, Ref.isNil]⟩
  | addr a =>
    have hlt : a < s.length := hp
    exact ⟨s.set a GoType.zero, by simp [Reset, Ref.isNil, assign_valid s a _ hlt]⟩

/-- C15: `Reset` is idempotent: for every reference `p` a program can hold, nil
or not, the store after `Reset(p); Reset(p)` is the store after a single
`Reset(p)`; and for non-nil `p` the store after any number `n ≥ 1` of resets is
that same store, in which the pointee is the zero value. -/
theorem Reset_idempotent {T : Type} [GoType T] (s : Store T) (p : Ref T)
    (hp : p.validIn s) :
    ∃ s1, Reset p s = some s1 ∧ Reset p s1 = some s1 ∧ ResetTimes 2 p s = some s1 ∧
      (p ≠ Ref.nil → ∀ n, 1 ≤ n →
        ResetTimes n p s = some s1 ∧ load s1 p = some (GoType.zero : T)) := by
  obtain ⟨s1, h1⟩ := Reset_returns s p hp
  refine ⟨s1, h1, Reset_fixed s s1 p h1, ResetTimes_succ s s1 p h1 1, ?_⟩
  intro hn n hpos
  obtain ⟨k, rfl⟩ : ∃ k, n = k + 1 := ⟨n - 1, by omega⟩
  refine ⟨ResetTimes_succ s s1 p h1 k, ?_⟩
  cases p with
  | nil => exact absurd rfl hn
  | addr a =>
    have hlt : a < s.length := hp
    simp only [Reset, Ref.isNil, Bool.not_false, if_true, assign_valid s a _ hlt,
      Option.some.injEq] at h1
    subst h1
    exact load_set_same s a _ hlt

theorem Reset_idempotent_witness :
    (Ref.addr 0 : Ref Int).validIn [5] ∧
    ∃ s1, Reset (Ref.addr 0 : Ref Int) [5] = some s1 ∧ Reset (Ref.addr 0) s1 = some s1 ∧
      ResetTimes 2 (Ref.addr 0) ([5] : Store Int) = some s1 ∧
      ((Ref.addr 0 : Ref Int) ≠ Ref.nil → ∀ n, 1 ≤ n →
        ResetTimes n (Ref.addr 0) ([5] : Store Int) = some s1 ∧
        load s1 (Ref.addr 0) = some (GoType.zero : Int)) :=
  ⟨by decide, Reset_idempotent ([5] : Store Int) (Ref.addr 0) (by decide)⟩

/-! ## Calls of the transform -/

theorem MapE_pure {T U σ : Type} (p : Ref T) (f : T → U) (st : Store T) (su : Store U)
    (w : σ) :
    MapE p (fun v w1 => (f v, w1)) st su w = (Map p f st su).map (fun r => (r, w)) := by
  cases p with
  | nil => simp [MapE, Map, Ref.isNil]
  | addr a =>
    cases h : load st (Ref.addr a) <;> simp [MapE, Map, Ref.isNil, h]

/-- C16: with each call of `f` recorded in a log, `Map(p, f)` calls `f` at most
once: when `p` is nil the log is unchanged (no call), and when `p` is a non-nil
reference into the store the log grows by exactly one entry, the pointee of
`p`; in both cases the result is that of `Map`. -/
theorem Map_calls_once {T U : Type} (st : Store T) (su : Store U) (p : Ref T) (f : T → U)
    (log : List T) (hp : p.validIn st) :
    (p = Ref.nil → MapE p (counted f) st su log = some ((Ref.nil, su), log)) ∧
    (p ≠ Ref.nil → ∃ v r, load st p = some v ∧ Map p f st su = some r ∧
      MapE p (counted f) st su log = some (r, log ++ [v])) ∧
    (∃ r log1, MapE p (counted f) st su log = some (r, log1) ∧ Map p f st su = some r ∧
      log1.length ≤ log.length + 1) := by
  cases p with
  | nil =>
    refine ⟨fun _ => ?_, fun e => absurd rfl e, ⟨(Ref.nil, su), log, ?_, ?_, by simp⟩⟩
    · simp [MapE, Ref.isNil]
    · simp [MapE, Ref.isNil]
    · simp [Map, Ref.isNil]
  | addr a =>
    have hlt : a < st.length := hp
    have hl : load st (Ref.addr a) = some st[a] := by simp [load, hlt]
    refine ⟨fun e => (by cases e), fun _ => ⟨st[a], alloc su (f st[a]), hl, ?_, ?_⟩,
      ⟨alloc su (f st[a]), log ++ [st[a]], ?_, ?_, by simp⟩⟩
    · simp [Map, Ref.isNil, hl]
    · simp [MapE, counted, Ref.isNil, hl]
    · simp [MapE, counted, Ref.isNil, hl]
    · simp [Map, Ref.isNil, hl]

theorem Map_calls_once_witness :
    (Ref.addr 0 : Ref Int).validIn [33] ∧
    ∃ r log1, MapE (Ref.addr 0 : Ref Int) (counted (fun n => decide (n = 33))) [33] [] []
        = some (r, log1) ∧
      Map (Ref.addr 0 : Ref Int) (fun n => decide (n = 33)) [33] [] = some r ∧
      log1.length ≤ ([] : List Int).length + 1 :=
  ⟨by decide, (Map_calls_once ([33] : Store Int) ([] : Store Bool) (Ref.addr 0)
    (fun n => decide (n = 33)) [] (by decide)).2.2⟩

/-! ## The operator `==` -/

theorem float64_eq_symm (a b : float64) (h : float64.eq a b = true) : float64.eq b a = true := by
  unfold float64.eq at h ⊢
  have hc : decide (b = a) = decide (a = b) := by
    by_cases e : a = b
    · subst e
      rfl
    · have e2 : ¬ b = a := fun k => e k.symm
      rw [decide_eq_false e, decide_eq_false e2]
  rw [hc]
  generalize a.isNaN = na at h ⊢
  generalize b.isNaN = nb at h ⊢
  generalize a.isZero = za at h ⊢
  generalize b.isZero = zb at h ⊢
  generalize decide (a = b) = e at h ⊢
  revert h
  cases na <;> cases nb <;> cases za <;> cases zb <;> cases e <;> decide

theorem float64_eq_trans (a b c : float64) (h1 : float64.eq a b = true)
    (h2 : float64.eq b c = true) : float64.eq a c = true := by
  by_cases hab : a = b
  · subst hab
    exact h2
  · by_cases hbc : b = c
    · subst hbc
      exact h1
    · unfold float64.eq at h1 h2 ⊢
      rw [decide_eq_false hab] at h1
      rw [decide_eq_false hbc] at h2
      generalize a.isNaN = na at h1 h2 ⊢
      generalize b.isNaN = nb at h1 h2 ⊢
      generalize c.isNaN = nc at h1 h2 ⊢
      generalize a.isZero = za at h1 h2 ⊢
      generalize b.isZero = zb at h1 h2 ⊢
      generalize c.isZero = zc at h1 h2 ⊢
      generalize decide (a = c) = e at h1 h2 ⊢
      revert h1 h2
      cases na <;> cases nb <;> cases nc <;> cases za <;> cases zb <;> cases zc <;>
        cases e <;> decide

theorem float64_eq_zero : float64.eq float64.posZero float64.posZero = true := by decide

theorem CompareRT_ofTotal {T : Type} [GoComparable T] (a b : Ref T) (s : Store T) :
    @CompareRT T (GoComparableRT.ofTotal T) a b s = Compare a b s := by
  cases a with
  | nil => rfl
  | addr i =>
    cases b with
    | nil => rfl
    | addr j =>
      cases hi : load s (Ref.addr i) <;> cases hj : load s (Ref.addr j) <;>
        simp [CompareRT, Compare, Ref.isNil, hi, hj, GoComparableRT.ofTotal]

/-! ## Faults -/

/-- C17, as stated, fails at the type argument `any`: for two non-nil
references to interface values that both hold a `[]int`, `Compare` reaches
`*a == *b`, which panics. -/
theorem Compare_any_slices_panics :
    (To (anyValue.ofIntSlice [1]) []).1 ≠ Ref.nil ∧
    (To (anyValue.ofIntSlice [1]) (To (anyValue.ofIntSlice [1]) []).2).1 ≠ Ref.nil ∧
    CompareRT (To (anyValue.ofIntSlice [1]) []).1
      (To (anyValue.ofIntSlice [1]) (To (anyValue.ofIntSlice [1]) []).2).1
      (To (anyValue.ofIntSlice [1]) (To (anyValue.ofIntSlice [1]) []).2).2 = none := by
  refine ⟨by simp [To, alloc], by simp [To, alloc], rfl⟩

/-- C17, amended: for nil or live references, `To`, `ToEmptyble`, `Deref`,
`DerefOr`, `Reset`, `ResetTo`, `ShallowCopy` and `Map` return without a fault
for every type argument; `Compare` returns when either argument is nil, and on
two non-nil references it returns or panics as the comparison `*a == *b` does,
so it always returns for a type whose `==` cannot panic. -/
theorem no_fault {T U : Type} [GoComparableRT T] (s : Store T) (su : Store U)
    (a b : Ref T) (v d : T) (f : T → U) (ha : a.validIn s) (hb : b.validIn s) :
    ((To v s).1 ≠ Ref.nil ∧ (To v s).1.validIn (To v s).2) ∧
    (ToEmptybleRT v s).isSome = true ∧
    (Deref a s).isSome = true ∧
    (DerefOr a d s).isSome = true ∧
    (Reset a s).isSome = true ∧
    (ResetTo a v s).isSome = true ∧
    (ShallowCopy a s).isSome = true ∧
    (Map a f s su).isSome = true ∧
    ((a = Ref.nil ∨ b = Ref.nil) → (CompareRT a b s).isSome = true) ∧
    (a ≠ Ref.nil → b ≠ Ref.nil → ∃ va vb, load s a = some va ∧ load s b = some vb ∧
      CompareRT a b s = GoComparableRT.eqRT va vb) ∧
    ((∀ x y : T, (GoComparableRT.eqRT x y).isSome = true) →
      (CompareRT a b s).isSome = true) := by
  have hE : (ToEmptybleRT v s).isSome = true := by
    have hz := GoComparableRT.eqRT_zero v
    cases h : GoComparableRT.eqRT v (GoType.zero : T) with
    | none => rw [h] at hz; cases hz
    | some r => cases r <;> simp [ToEmptybleRT, h]
  have hTo : (To v s).1 ≠ Ref.nil ∧ (To v s).1.validIn (To v s).2 := by
    simp [To, alloc, Ref.validIn]
  cases a with
  | nil =>
    refine ⟨hTo, hE, rfl, rfl, rfl, rfl, rfl, rfl, ?_, fun h => absurd rfl h, ?_⟩
    · intro _
      cases b <;> rfl
    · intro _
      cases b <;> rfl
  | addr i =>
    have hi : i < s.length := ha
    have hli : load s (Ref.addr i) = some s[i] := by simp [load, hi]
    refine ⟨hTo, hE, ?_, ?_, ?_, ?_, ?_, ?_, ?_, ?_, ?_⟩
    · simp [Deref, Ref.isNil, hli]
    · simp [DerefOr, Ref.isNil, hli]
    · simp [Reset, Ref.isNil, assign_valid s i _ hi]
    · simp [ResetTo, Ref.isNil, assign_valid s i _ hi]
    · simp [ShallowCopy, Ref.isNil, hli]
    · simp [Map, Ref.isNil, hli]
    · intro h
      cases b with
      | nil => rfl
      | addr j => simp at h
    · intro _ hbn
      cases b with
      | nil => exact absurd rfl hbn
      | addr j =>
        have hj : j < s.length := hb
        have hlj : load s (Ref.addr j) = some s[j] := by simp [load, hj]
        exact ⟨s[i], s[j], hli, hlj, by simp [CompareRT, Ref.isNil, hli, hlj]⟩
    · intro htot
      cases b with
      | nil => rfl
      | addr j =>
        have hj : j < s.length := hb
        have hlj : load s (Ref.addr j) = some s[j] := by simp [load, hj]
        simpa [CompareRT, Ref.isNil, hli, hlj] using htot s[i] s[j]

theorem no_fault_witness :
    (Ref.addr 0 : Ref anyValue).validIn [anyValue.ofInt 1] ∧
    (Ref.nil : Ref anyValue).validIn [anyValue.ofInt 1] ∧
    (Deref (Ref.addr 0) [anyValue.ofInt 1]).isSome = true ∧
    (CompareRT (Ref.addr 0) Ref.nil [anyValue.ofInt 1]).isSome = true :=
  ⟨by decide, by decide,
    (no_fault [anyValue.ofInt 1] ([] : Store Int) (Ref.addr 0) Ref.nil
      (anyValue.ofInt 2) anyValue.nilValue (fun _ => 0) (by decide) (by decide)).2.2.1,
    (no_fault [anyValue.ofInt 1] ([] : Store Int) (Ref.addr 0) Ref.nil
      (anyValue.ofInt 2) anyValue.nilValue (fun _ => 0) (by decide) (by decide)).2.2.2.2.2.2.2.2.1
      (Or.inr rfl)⟩

/-! ## ToEmptyble followed by Deref or Compare -/

/-- C18, as stated, fails at `float64`: `Deref(ToEmptyble(-0.0))` is `+0.0`, a
value other than `-0.0`, so the sign of the zero is lost; and
`Deref(ToEmptyble(NaN))` is the NaN, which is not `==` to itself. -/
theorem Deref_ToEmptyble_negZero :
    (ToEmptyble float64.negZero []).1 = Ref.nil ∧
    Deref (ToEmptyble float64.negZero []).1 (ToEmptyble float64.negZero []).2
      = some float64.posZero ∧
    float64.posZero ≠ float64.negZero ∧
    Deref (ToEmptyble float64.nan []).1 (ToEmptyble float64.nan []).2 = some float64.nan ∧
    GoComparable.eq float64.nan float64.nan = false :=
  ⟨rfl, rfl, by decide, rfl, rfl⟩

/-- C18, amended: `Deref(ToEmptyble(v))` returns the zero value of `T` when
`v == zero` holds and `v` itself when it does not; so it returns `v` for every
`v` that is the zero value whenever it is `==` to the zero value. -/
theorem Deref_ToEmptyble {T : Type} [GoComparable T] (v : T) (s : Store T) :
    Deref (ToEmptyble v s).1 (ToEmptyble v s).2
      = some (if GoComparable.eq v (GoType.zero : T) = true then (GoType.zero : T) else v) ∧
    ((GoComparable.eq v (GoType.zero : T) = true → v = GoType.zero) →
      Deref (ToEmptyble v s).1 (ToEmptyble v s).2 = some v) := by
  by_cases h : GoComparable.eq v (GoType.zero : T) = true
  · refine ⟨by simp [ToEmptyble, Deref, Ref.isNil, h], fun hz => ?_⟩
    have e : Deref (ToEmptyble v s).1 (ToEmptyble v s).2 = some (GoType.zero : T) := by
      simp [ToEmptyble, Deref, Ref.isNil, h]
    rw [e]
    exact congrArg some (hz h).symm
  · refine ⟨by simp [ToEmptyble, Deref, Ref.isNil, h, alloc, load], fun _ => ?_⟩
    simp [ToEmptyble, Deref, Ref.isNil, h, alloc, load]

theorem Deref_ToEmptyble_witness :
    (GoComparable.eq (0 : Int) (GoType.zero : Int) = true → (0 : Int) = GoType.zero) ∧
    Deref (ToEmptyble (0 : Int) []).1 (ToEmptyble (0 : Int) []).2 = some 0 :=
  ⟨fun _ => rfl, (Deref_ToEmptyble (0 : Int) []).2 (fun _ => rfl)⟩

/-! ## Map: composition and identity -/

/-- C20: for a pointer a program can hold, `Map(Map(p, f), g)` and
`Map(p, g ∘ f)` both return, and their results are both nil or both non-nil
with the same pointee; and `Map(p, identity)` and `ShallowCopy(p)` both return,
with results both nil or both non-nil with pointee that of `p`. -/
theorem Map_comp_id {T U V : Type} (st : Store T) (su : Store U) (sv : Store V)
    (p : Ref T) (f : T → U) (g : U → V) (hp : p.validIn st) :
    (∃ q su1 r sv1 r2 sv2, Map p f st su = some (q, su1) ∧
      Map q g su1 sv = some (r, sv1) ∧ Map p (g ∘ f) st sv = some (r2, sv2) ∧
      ((r = Ref.nil ∧ r2 = Ref.nil) ∨
        (r ≠ Ref.nil ∧ r2 ≠ Ref.nil ∧
          ∃ z, load sv1 r = some z ∧ load sv2 r2 = some z))) ∧
    (∃ m sm c sc, Map p id st st = some (m, sm) ∧ ShallowCopy p st = some (c, sc) ∧
      ((m = Ref.nil ∧ c = Ref.nil) ∨
        (m ≠ Ref.nil ∧ c ≠ Ref.nil ∧
          ∃ v, load st p = some v ∧ load sm m = some v ∧ load sc c = some v))) := by
  cases p with
  | nil =>
    refine ⟨⟨Ref.nil, su, Ref.nil, sv, Ref.nil, sv, ?_, ?_, ?_, Or.inl ⟨rfl, rfl⟩⟩,
      ⟨Ref.nil, st, Ref.nil, st, ?_, ?_, Or.inl ⟨rfl, rfl⟩⟩⟩ <;>
      simp [Map, ShallowCopy, Ref.isNil]
  | addr a =>
    have ha : a < st.length := hp
    have hl : load st (Ref.addr a) = some st[a] := by simp [load, ha]
    refine ⟨⟨Ref.addr su.length, su ++ [f st[a]], Ref.addr sv.length,
        sv ++ [g (f st[a])], Ref.addr sv.length, sv ++ [g (f st[a])], ?_, ?_, ?_,
        Or.inr ⟨by simp, by simp, g (f st[a]), load_alloc sv _, load_alloc sv _⟩⟩,
      ⟨Ref.addr st.length, st ++ [st[a]], Ref.addr st.length, st ++ [st[a]], ?_, ?_,
        Or.inr ⟨by simp, by simp, st[a], hl, load_alloc st _, load_alloc st _⟩⟩⟩
    · simp [Map, Ref.isNil, hl, alloc]
    · have hq : load (su ++ [f st[a]]) (Ref.addr su.length) = some (f st[a]) :=
        load_alloc su _
      simp [Map, Ref.isNil, hq, alloc]
    · simp [Map, Ref.isNil, hl, alloc]
    · simp [Map, Ref.isNil, hl, alloc]
    · simp [ShallowCopy, Ref.isNil, hl, alloc]

theorem Map_comp_id_witness :
    (Ref.addr 0 : Ref Int).validIn [42] ∧
    ∃ m sm c sc, Map (Ref.addr 0 : Ref Int) id [42] [42] = some (m, sm) ∧
      ShallowCopy (Ref.addr 0 : Ref Int) [42] = some (c, sc) ∧
      ((m = Ref.nil ∧ c = Ref.nil) ∨
        (m ≠ Ref.nil ∧ c ≠ Ref.nil ∧
          ∃ v, load ([42] : Store Int) (Ref.addr 0) = some v ∧ load sm m = some v ∧
            load sc c = some v)) :=
  ⟨by decide, (Map_comp_id ([42] : Store Int) ([] : Store Bool) ([] : Store String)
    (Ref.addr 0) (fun n => decide (n = 42)) (fun b => toString b) (by decide)).2⟩

/-! ## Types of size zero -/

theorem allocSized_sized {T : Type} [GoSized T] (h : @GoSized.zeroSize T _ = false)
    (s : Store T) (v : T) : allocSized s v = alloc s v := by
  simp [allocSized, h]

theorem allocSized_zeroSize {T : Type} [GoSized T] (h : @GoSized.zeroSize T _ = true)
    (s : Store T) (v : T) : allocSized s v = allocZS s v := by
  simp [allocSized, h]

theorem allocZS_cons {T : Type} (c : T) (cs : Store T) (v : T) :
    allocZS (c :: cs) v = (Ref.addr 0, c :: cs) := rfl

theorem ToSized_sized {T : Type} [GoSized T] (h : @GoSized.zeroSize T _ = false)
    (v : T) (s : Store T) : ToSized v s = To v s :=
  allocSized_sized h s v

theorem ShallowCopySized_sized {T : Type} [GoSized T] (h : @GoSized.zeroSize T _ = false)
    (p : Ref T) (s : Store T) : ShallowCopySized p s = ShallowCopy p s := by
  cases p with
  | nil => rfl
  | addr a =>
    cases hl : load s (Ref.addr a) <;>
      simp [ShallowCopySized, ShallowCopy, Ref.isNil, hl, allocSized_sized h]

theorem load_allocSized {T : Type} [GoSized T] (s : Store T) (v : T) :
    load (allocSized s v).2 (allocSized s v).1 = some v := by
  cases h : @GoSized.zeroSize T _ with
  | false =>
    rw [allocSized_sized h]
    exact load_alloc s v
  | true =>
    rw [allocSized_zeroSize h]
    cases s with
    | nil => rfl
    | cons c cs =>
      rw [allocZS_cons, GoSized.single h v c]
      simp [load]

theorem load_allocSized_old {T : Type} [GoSized T] (s : Store T) (v : T) (a : Nat)
    (ha : a < s.length) :
    load (allocSized s v).2 (Ref.addr a) = load s (Ref.addr a) := by
  cases h : @GoSized.zeroSize T _ with
  | false =>
    rw [allocSized_sized h]
    exact load_alloc_old s v a ha
  | true =>
    rw [allocSized_zeroSize h]
    cases s with
    | nil => simp at ha
    | cons c cs => rfl

theorem allocSized_ne_nil {T : Type} [GoSized T] (s : Store T) (v : T) :
    (allocSized s v).1 ≠ Ref.nil := by
  cases h : @GoSized.zeroSize T _ with
  | false =>
    rw [allocSized_sized h]
    exact alloc_ne_nil s v
  | true =>
    rw [allocSized_zeroSize h]
    cases s <;> simp [allocZS]

theorem allocSized_fresh {T : Type} [GoSized T] (h : @GoSized.zeroSize T _ = false)
    (s : Store T) (v : T) (a : Nat) (ha : a < s.length) :
    (allocSized s v).1 ≠ Ref.addr a := by
  rw [allocSized_sized h]
  exact fun e => addr_ne_fresh s a ha e.symm

/-- C12, as stated, fails at the zero-size type `struct{}`: the reference that
`ShallowCopy(p)` returns for `p := To(struct{}{})` is `p` itself, not a
distinct one. -/
theorem ShallowCopy_emptyStruct_same :
    (ToSized emptyStruct.mk []).1 ≠ Ref.nil ∧
    ShallowCopySized (ToSized emptyStruct.mk []).1 (ToSized emptyStruct.mk []).2
      = some ((ToSized emptyStruct.mk []).1, (ToSized emptyStruct.mk []).2) := by
  refine ⟨?_, rfl⟩
  exact allocSized_ne_nil [] emptyStruct.mk

/-- C12, amended: `ShallowCopy(nil)` is nil and leaves the store as it was; for
a non-nil reference `p` into the store, `ShallowCopy(p)` returns a non-nil
reference to a cell holding the pointee of `p`, and the pointee of `p` is
unchanged; when `T` has non-zero size that reference is distinct from `p`. -/
theorem ShallowCopy_sized {T : Type} [GoSized T] (s : Store T) (p : Ref T)
    (hp : p.validIn s) :
    ShallowCopySized (Ref.nil : Ref T) s = some (Ref.nil, s) ∧
    (p ≠ Ref.nil → ∃ v q s1, load s p = some v ∧ ShallowCopySized p s = some (q, s1) ∧
      q ≠ Ref.nil ∧ load s1 q = some v ∧ load s1 p = some v ∧
      (@GoSized.zeroSize T _ = false → q ≠ p)) := by
  refine ⟨by simp [ShallowCopySized, Ref.isNil], fun hn => ?_⟩
  obtain ⟨v, hv⟩ := load_of_valid s p hn hp
  cases p with
  | nil => exact absurd rfl hn
  | addr a =>
    have hlt : a < s.length := hp
    refine ⟨v, (allocSized s v).1, (allocSized s v).2, hv, ?_, allocSized_ne_nil s v,
      load_allocSized s v, ?_, fun h => allocSized_fresh h s v a hlt⟩
    · simp [ShallowCopySized, Ref.isNil, hv]
    · rw [← hv]
      exact load_allocSized_old s v a hlt

theorem ShallowCopy_sized_witness :
    (Ref.addr 0 : Ref Int).validIn [2024] ∧
    ShallowCopySized (Ref.nil : Ref Int) [2024] = some (Ref.nil, [2024]) ∧
    ((Ref.addr 0 : Ref Int) ≠ Ref.nil → ∃ v q s1,
      load ([2024] : Store Int) (Ref.addr 0) = some v ∧
      ShallowCopySized (Ref.addr 0 : Ref Int) [2024] = some (q, s1) ∧
      q ≠ Ref.nil ∧ load s1 q = some v ∧ load s1 (Ref.addr 0) = some v ∧
      (@GoSized.zeroSize Int _ = false → q ≠ Ref.addr 0)) :=
  ⟨by decide, ShallowCopy_sized ([2024] : Store Int) (Ref.addr 0) (by decide)⟩

/-- C11: when the variable `original` (a cell of the store) holds `v` and
`p := To(original)`: after `ResetTo(p, x)`, which is the direct write `*p = x`,
`original` and every cell that existed before the call to `To` are unchanged,
and after assigning a new value to `original` the pointee of `p` is still `v`;
when `T` has non-zero size, `p` is a fresh cell, other than `original`. -/
theorem To_independent {T : Type} [GoSized T] (s : Store T) (o : Nat) (v x w : T)
    (ho : load s (Ref.addr o) = some v) :
    (∃ s2, ResetTo (ToSized v s).1 x (ToSized v s).2 = some s2 ∧
      assign (ToSized v s).2 (ToSized v s).1 x = some s2 ∧
      load s2 (ToSized v s).1 = some x ∧
      load s2 (Ref.addr o) = some v ∧
      ∀ a, a < s.length → load s2 (Ref.addr a) = load s (Ref.addr a)) ∧
    (∃ s3, assign (ToSized v s).2 (Ref.addr o) w = some s3 ∧
      load s3 (ToSized v s).1 = some v) ∧
    (@GoSized.zeroSize T _ = false → (ToSized v s).1 ≠ Ref.addr o) := by
  have hlt : o < s.length := lt_of_load s o v ho
  refine ⟨?_, ?_, fun h => allocSized_fresh h s v o hlt⟩
  · cases h : @GoSized.zeroSize T _ with
    | false =>
      rw [ToSized_sized h]
      refine ⟨(s ++ [v]).set s.length x, ?_, assign_fresh s v x, load_fresh_written s v x,
        ?_, ?_⟩
      · simp [ResetTo, To, Ref.isNil, alloc, assign]
      · rw [load_old_after_fresh_write s v x o hlt]
        exact ho
      · intro a ha
        exact load_old_after_fresh_write s v x a ha
    | true =>
      cases s with
      | nil => simp at hlt
      | cons c cs =>
        have hx : x = c := GoSized.single h x c
        subst hx
        have hT : ToSized v (x :: cs) = (Ref.addr 0, x :: cs) := by
          unfold ToSized
          rw [allocSized_zeroSize h, allocZS_cons]
        rw [hT]
        refine ⟨x :: cs, ?_, ?_, ?_, ho, fun a _ => rfl⟩
        · simp [ResetTo, Ref.isNil, assign]
        · simp [assign]
        · simp [load]
  · cases h : @GoSized.zeroSize T _ with
    | false =>
      rw [ToSized_sized h]
      refine ⟨(s ++ [v]).set o w, ?_, load_fresh_after_old_write s v w o hlt⟩
      have hlt2 : o < (s ++ [v]).length := by simp; omega
      simpa [To, alloc] using assign_valid (s ++ [v]) o w hlt2
    | true =>
      cases s with
      | nil => simp at hlt
      | cons c cs =>
        have hT : ToSized v (c :: cs) = (Ref.addr 0, c :: cs) := by
          unfold ToSized
          rw [allocSized_zeroSize h, allocZS_cons]
        rw [hT]
        refine ⟨(c :: cs).set o w, assign_valid (c :: cs) o w hlt, ?_⟩
        have hlen : 0 < ((c :: cs).set o w).length := by simp
        have hg : load ((c :: cs).set o w) (Ref.addr 0)
            = some (((c :: cs).set o w)[0]) := by
          simp [load]
        rw [hg, GoSized.single h (((c :: cs).set o w)[0]) v]

theorem To_independent_witness :
    load (["dragon"] : Store String) (Ref.addr 0) = some "dragon" ∧
    ∃ s2, ResetTo (ToSized "dragon" ["dragon"]).1 "age" (ToSized "dragon" ["dragon"]).2
        = some s2 ∧
      assign (ToSized "dragon" ["dragon"]).2 (ToSized "dragon" ["dragon"]).1 "age" = some s2 ∧
      load s2 (ToSized "dragon" ["dragon"]).1 = some "age" ∧
      load s2 (Ref.addr 0) = some "dragon" ∧
      ∀ a, a < (["dragon"] : Store String).length →
        load s2 (Ref.addr a) = load (["dragon"] : Store String) (Ref.addr a) :=
  ⟨rfl, (To_independent (["dragon"] : Store String) 0 "dragon" "age" "knight" rfl).1⟩

/-! ## Compare over a `==` that may panic -/

theorem anyValue_eqRT_symm (a b : anyValue) (h : anyValue.eqRT a b = some true) :
    anyValue.eqRT b a = some true := by
  cases a <;> cases b <;> simp_all [anyValue.eqRT, eq_comm]

theorem anyValue_eqRT_trans (a b c : anyValue) (h1 : anyValue.eqRT a b = some true)
    (h2 : anyValue.eqRT b c = some true) : anyValue.eqRT a c = some true := by
  cases a <;> cases b <;> cases c <;> simp_all [anyValue.eqRT]

/-- C1, as stated, fails at the type argument `any`: for two non-nil references
to interface values that hold two different `[]int`, `Compare` reaches
`*a == *b`, which panics, so the call is neither true nor false. -/
theorem Compare_any_neither :
    (Ref.addr 0 : Ref anyValue).validIn [anyValue.ofIntSlice [], anyValue.ofIntSlice [2, 3]] ∧
    (Ref.addr 1 : Ref anyValue).validIn [anyValue.ofIntSlice [], anyValue.ofIntSlice [2, 3]] ∧
    CompareRT (Ref.addr 0) (Ref.addr 1)
      [anyValue.ofIntSlice [], anyValue.ofIntSlice [2, 3]] ≠ some true ∧
    CompareRT (Ref.addr 0) (Ref.addr 1)
      [anyValue.ofIntSlice [], anyValue.ofIntSlice [2, 3]] ≠ some false := by
  have h : CompareRT (Ref.addr 0) (Ref.addr 1)
      [anyValue.ofIntSlice [], anyValue.ofIntSlice [2, 3]] = none := rfl
  refine ⟨by decide, by decide, ?_, ?_⟩ <;> rw [h] <;> simp

/-- C1, amended: for pointers `a`, `b` a program can hold, `Compare(a, b)` is
true exactly when both are nil or both are non-nil and `*a == *b` is true; it
is false exactly when exactly one is nil or both are non-nil and `*a == *b` is
false; it panics exactly when both are non-nil and `*a == *b` panics.  For a
type whose `==` cannot panic it is false in every case where it is not true. -/
theorem Compare_cases {T : Type} [GoComparableRT T] (s : Store T) (a b : Ref T)
    (ha : a.validIn s) (hb : b.validIn s) :
    (CompareRT a b s = some true ↔
      ((a = Ref.nil ∧ b = Ref.nil) ∨
        (a ≠ Ref.nil ∧ b ≠ Ref.nil ∧ ∃ va vb, load s a = some va ∧ load s b = some vb ∧
          GoComparableRT.eqRT va vb = some true))) ∧
    (CompareRT a b s = some false ↔
      ((a = Ref.nil ∧ b ≠ Ref.nil) ∨ (a ≠ Ref.nil ∧ b = Ref.nil) ∨
        (a ≠ Ref.nil ∧ b ≠ Ref.nil ∧ ∃ va vb, load s a = some va ∧ load s b = some vb ∧
          GoComparableRT.eqRT va vb = some false))) ∧
    (CompareRT a b s = none ↔
      (a ≠ Ref.nil ∧ b ≠ Ref.nil ∧ ∃ va vb, load s a = some va ∧ load s b = some vb ∧
        GoComparableRT.eqRT va vb = none)) ∧
    ((∀ x y : T, (GoComparableRT.eqRT x y).isSome = true) →
      (CompareRT a b s = some false ↔
        ¬ ((a = Ref.nil ∧ b = Ref.nil) ∨
          (a ≠ Ref.nil ∧ b ≠ Ref.nil ∧ ∃ va vb, load s a = some va ∧ load s b = some vb ∧
            GoComparableRT.eqRT va vb = some true)))) := by
  cases a with
  | nil =>
    cases b with
    | nil => simp [CompareRT, Ref.isNil]
    | addr j => simp [CompareRT, Ref.isNil]
  | addr i =>
    cases b with
    | nil => simp [CompareRT, Ref.isNil]
    | addr j =>
      have hi : i < s.length := ha
      have hj : j < s.length := hb
      have hc : CompareRT (Ref.addr i) (Ref.addr j) s = GoComparableRT.eqRT s[i] s[j] := by
        simp [CompareRT, Ref.isNil, load, hi, hj]
      rw [hc]
      refine ⟨?_, ?_, ?_, ?_⟩
      · simp [load, hi, hj]
      · simp [load, hi, hj]
      · simp [load, hi, hj]
      · intro htot
        have hsome := htot s[i] s[j]
        cases hr : GoComparableRT.eqRT s[i] s[j] with
        | none => rw [hr] at hsome; cases hsome
        | some r => cases r <;> simp [load, hi, hj, hr]

theorem Compare_cases_witness :
    (Ref.addr 0 : Ref anyValue).validIn [anyValue.ofInt 5, anyValue.ofInt 5] ∧
    (Ref.addr 1 : Ref anyValue).validIn [anyValue.ofInt 5, anyValue.ofInt 5] ∧
    CompareRT (Ref.addr 0) (Ref.addr 1) [anyValue.ofInt 5, anyValue.ofInt 5] = some true :=
  ⟨by decide, by decide,
    (Compare_cases [anyValue.ofInt 5, anyValue.ofInt 5] (Ref.addr 0) (Ref.addr 1)
      (by decide) (by decide)).1.mpr
      (Or.inr ⟨by simp, by simp, anyValue.ofInt 5, anyValue.ofInt 5, rfl, rfl, rfl⟩)⟩

/-- C2, amended: `Compare(To(x), To(x))` returns the value of `x == x` when that
comparison returns, and panics when it panics; so it is true for every `x` that
is `==` to itself.  When `T` has non-zero size the two arguments are distinct
references. -/
theorem Compare_To_To {T : Type} [GoComparableRT T] [GoSized T] (x : T) (s : Store T) :
    CompareRT (ToSized x s).1 (ToSized x (ToSized x s).2).1 (ToSized x (ToSized x s).2).2
      = GoComparableRT.eqRT x x ∧
    (@GoSized.zeroSize T _ = false → (ToSized x s).1 ≠ (ToSized x (ToSized x s).2).1) := by
  cases h : @GoSized.zeroSize T _ with
  | false =>
    simp only [ToSized_sized h]
    refine ⟨?_, fun _ => by simp [To, alloc]⟩
    have h1 : (s ++ [x] ++ [x])[s.length]? = some x := by
      rw [List.getElem?_append_left (by simp)]
      simp
    have h2 : (s ++ [x] ++ [x])[s.length + 1]? = some x := by
      rw [List.getElem?_append_right (by simp)]
      simp
    simp only [CompareRT, To, alloc, Ref.isNil, load, List.length_append,
      List.length_singleton, Bool.or_self, Bool.false_eq_true, if_false, h1, h2]
  | true =>
    refine ⟨?_, fun hf => by cases hf⟩
    cases s with
    | nil =>
      have hT1 : ToSized x ([] : Store T) = (Ref.addr 0, [x]) := by
        unfold ToSized
        rw [allocSized_zeroSize h]
        rfl
      have hT2 : ToSized x ([x] : Store T) = (Ref.addr 0, [x]) := by
        unfold ToSized
        rw [allocSized_zeroSize h, allocZS_cons]
      rw [hT1]
      simp only [hT2]
      simp [CompareRT, Ref.isNil, load]
    | cons c cs =>
      have hT : ToSized x (c :: cs) = (Ref.addr 0, c :: cs) := by
        unfold ToSized
        rw [allocSized_zeroSize h, allocZS_cons]
      rw [hT]
      simp only [hT]
      rw [GoSized.single h x c]
      simp [CompareRT, Ref.isNil, load]

theorem Compare_To_To_witness :
    @GoSized.zeroSize anyValue _ = false ∧
    (ToSized (anyValue.ofInt 1) []).1
      ≠ (ToSized (anyValue.ofInt 1) (ToSized (anyValue.ofInt 1) []).2).1 :=
  ⟨rfl, (Compare_To_To (anyValue.ofInt 1) []).2 rfl⟩

/-- C19, as stated, fails at the type argument `any`: for `x` and `y` the same
value, a `[]int`, both `ToEmptyble` calls return non-nil references and
`Compare` panics at `*a == *b`, so it is not true. -/
theorem Compare_ToEmptyble_any_panics :
    ToEmptybleRT (anyValue.ofIntSlice [1]) []
      = some (Ref.addr 0, [anyValue.ofIntSlice [1]]) ∧
    ToEmptybleRT (anyValue.ofIntSlice [1]) [anyValue.ofIntSlice [1]]
      = some (Ref.addr 1, [anyValue.ofIntSlice [1], anyValue.ofIntSlice [1]]) ∧
    CompareRT (Ref.addr 0) (Ref.addr 1)
      [anyValue.ofIntSlice [1], anyValue.ofIntSlice [1]] = none :=
  ⟨rfl, rfl, rfl⟩

/-- C19, amended: for a comparable type whose `==`, where it returns true, is
symmetric and transitive, and whose zero value is `==` to itself (every Go type
is such), both `ToEmptyble` calls return and `Compare(ToEmptyble(x),
ToEmptyble(y))` is true if and only if `x == y` is true; whenever `x == y`
returns, `Compare` returns its value; and when neither `x` nor `y` is `==` to
the zero value, `Compare` returns or panics as `x == y` does.  With `To` on one
side the equivalence breaks: `Compare(ToEmptyble(zero), To(zero))` is false
although `Deref` of either reference is the zero value. -/
theorem Compare_ToEmptyble {T : Type} [GoComparableRT T]
    (hsymm : ∀ a b : T, GoComparableRT.eqRT a b = some true →
      GoComparableRT.eqRT b a = some true)
    (htrans : ∀ a b c : T, GoComparableRT.eqRT a b = some true →
      GoComparableRT.eqRT b c = some true → GoComparableRT.eqRT a c = some true)
    (hzero : GoComparableRT.eqRT (GoType.zero : T) GoType.zero = some true)
    (x y : T) (s : Store T) :
    (∃ p s1 q s2, ToEmptybleRT x s = some (p, s1) ∧ ToEmptybleRT y s1 = some (q, s2) ∧
      (CompareRT p q s2 = some true ↔ GoComparableRT.eqRT x y = some true) ∧
      ((GoComparableRT.eqRT x y).isSome = true →
        CompareRT p q s2 = GoComparableRT.eqRT x y) ∧
      (GoComparableRT.eqRT x (GoType.zero : T) = some false →
        GoComparableRT.eqRT y (GoType.zero : T) = some false →
        CompareRT p q s2 = GoComparableRT.eqRT x y)) ∧
    (ToEmptybleRT (GoType.zero : T) s = some (Ref.nil, s) ∧
      CompareRT Ref.nil (To (GoType.zero : T) s).1 (To (GoType.zero : T) s).2 = some false ∧
      Deref Ref.nil (To (GoType.zero : T) s).2 = some (GoType.zero : T) ∧
      Deref (To (GoType.zero : T) s).1 (To (GoType.zero : T) s).2
        = some (GoType.zero : T)) := by
  constructor
  · have hzx := GoComparableRT.eqRT_zero x
    have hzy := GoComparableRT.eqRT_zero y
    cases hx : GoComparableRT.eqRT x (GoType.zero : T) with
    | none => rw [hx] at hzx; cases hzx
    | some bx =>
      cases hy : GoComparableRT.eqRT y (GoType.zero : T) with
      | none => rw [hy] at hzy; cases hzy
      | some by1 =>
        cases bx with
        | true =>
          cases by1 with
          | true =>
            have hxy : GoComparableRT.eqRT x y = some true :=
              htrans x _ y hx (hsymm y _ hy)
            refine ⟨Ref.nil, s, Ref.nil, s, by simp [ToEmptybleRT, hx],
              by simp [ToEmptybleRT, hy], ?_, ?_, ?_⟩
            · simp [CompareRT, Ref.isNil, hxy]
            · intro _
              simp [CompareRT, Ref.isNil, hxy]
            · intro h
              cases h
          | false =>
            have hxy : GoComparableRT.eqRT x y ≠ some true := by
              intro h
              have h3 := htrans y x _ (hsymm x y h) hx
              rw [hy] at h3
              cases h3
            refine ⟨Ref.nil, s, (alloc s y).1, (alloc s y).2, by simp [ToEmptybleRT, hx],
              by simp [ToEmptybleRT, hy], ?_, ?_, ?_⟩
            · simp [CompareRT, Ref.isNil, alloc, hxy]
            · intro hs
              cases hr : GoComparableRT.eqRT x y with
              | none => rw [hr] at hs; cases hs
              | some r =>
                cases r with
                | true => exact absurd hr hxy
                | false => simp [CompareRT, Ref.isNil, alloc]
            · intro h
              cases h
        | false =>
          cases by1 with
          | true =>
            have hxy : GoComparableRT.eqRT x y ≠ some true := by
              intro h
              have h3 := htrans x y _ h hy
              rw [hx] at h3
              cases h3
            refine ⟨(alloc s x).1, (alloc s x).2, Ref.nil, (alloc s x).2,
              by simp [ToEmptybleRT, hx], by simp [ToEmptybleRT, hy], ?_, ?_, ?_⟩
            · simp [CompareRT, Ref.isNil, alloc, hxy]
            · intro hs
              cases hr : GoComparableRT.eqRT x y with
              | none => rw [hr] at hs; cases hs
              | some r =>
                cases r with
                | true => exact absurd hr hxy
                | false => simp [CompareRT, Ref.isNil, alloc]
            · intro _ h
              cases h
          | false =>
            have h1 : (s ++ [x] ++ [y])[s.length]? = some x := by
              rw [List.getElem?_append_left (by simp)]
              simp
            have h2 : (s ++ [x] ++ [y])[s.length + 1]? = some y := by
              rw [List.getElem?_append_right (by simp)]
              simp
            have hc : CompareRT (Ref.addr s.length : Ref T) (Ref.addr (s.length + 1))
                (s ++ [x] ++ [y]) = GoComparableRT.eqRT x y := by
              simp only [CompareRT, Ref.isNil, load, Bool.or_self, Bool.false_eq_true,
                if_false, h1, h2]
            refine ⟨Ref.addr s.length, s ++ [x], Ref.addr (s.length + 1), s ++ [x] ++ [y],
              by simp [ToEmptybleRT, hx, alloc], by simp [ToEmptybleRT, hy, alloc], ?_, ?_, ?_⟩
            · rw [hc]
            · intro _
              exact hc
            · intro _ _
              exact hc
  · refine ⟨by simp [ToEmptybleRT, hzero], ?_, ?_, ?_⟩
    · simp [CompareRT, To, alloc, Ref.isNil]
    · simp [Deref, Ref.isNil]
    · simp [Deref, To, alloc, Ref.isNil, load]

theorem Compare_ToEmptyble_witness :
    (∀ a b : anyValue, GoComparableRT.eqRT a b = some true →
      GoComparableRT.eqRT b a = some true) ∧
    (∀ a b c : anyValue, GoComparableRT.eqRT a b = some true →
      GoComparableRT.eqRT b c = some true → GoComparableRT.eqRT a c = some true) ∧
    GoComparableRT.eqRT (GoType.zero : anyValue) GoType.zero = some true ∧
    ToEmptybleRT (GoType.zero : anyValue) [] = some (Ref.nil, []) ∧
    CompareRT Ref.nil (To (GoType.zero : anyValue) []).1 (To (GoType.zero : anyValue) []).2
      = some false :=
  ⟨anyValue_eqRT_symm, anyValue_eqRT_trans, rfl,
    (Compare_ToEmptyble anyValue_eqRT_symm anyValue_eqRT_trans rfl
      (anyValue.ofInt 1) (anyValue.ofInt 1) []).2.1,
    (Compare_ToEmptyble anyValue_eqRT_symm anyValue_eqRT_trans rfl
      (anyValue.ofInt 1) (anyValue.ofInt 1) []).2.2.1⟩

end ptr
